import Mathlib

/-
Verification of the tessel-rust port/pin and I2C driver core (src/src/lib.rs)
against its natural-language specification.

The Rust code is shallowly embedded:
  * the Unix domain socket (the Channel) is a state record holding the bytes
    readable from the coprocessor (`rx`), the bytes written so far (`tx`),
    and an oracle `wbehav` giving the outcome of each successive write
    syscall (Rust `Write::write` may fail, or accept only a prefix);
  * u8 values are Nats, with `% 256` written where the Rust code truncates;
  * fallible operations return `Option` (Rust `io::Result`), and operations
    that can panic (`.unwrap()`, `assert_eq!`, `.expect(..)`) return an
    `OpRes` / `PinRes` value with an explicit `panicked` constructor.
-/

/-- Modelled from the spec: the crate declares `pub mod protocol` (the
command opcodes sent host -> device and the reply tags sent device -> host),
but that module's source file is not in the repository snapshot.  The spec
fixes a closed set of opcodes — enable-bus (`command::ENABLE_I2C`), start
(`command::START`), transmit (`command::TX`), receive (`command::RX`), stop
(`command::STOP`) — and one reply tag, data (`reply::DATA`), each a single
byte.  The byte values themselves are unspecified, so they are abstract
fields of this structure and every theorem quantifies over them. -/
structure Protocol where
  ENABLE_I2C : Nat
  START : Nat
  TX : Nat
  RX : Nat
  STOP : Nat
  DATA : Nat

/-- Outcome of one `Write::write` syscall on the underlying socket, as seen
by the operating system: an I/O error, or acceptance of up to `n` bytes
(Rust `write` may accept fewer bytes than offered). -/
inductive WriteRes where
  | ok (n : Nat) : WriteRes
  | err : WriteRes
deriving DecidableEq

/-- State of the `unix_socket::UnixStream` bound to one port: `rx` is the
sequence of reply bytes the coprocessor has made available to read, `tx` the
bytes written so far, `wbehav k` the outcome the OS gives the k-th write
syscall, and `wcalls` counts write syscalls made so far. -/
structure UnixStream where
  rx : List Nat
  tx : List Nat
  wbehav : Nat → WriteRes
  wcalls : Nat

/-- One `Write::write` call on the socket: consult the oracle; on error
nothing is transferred; on `ok n` the first `min n buf.length` bytes are
appended to the stream and that count is returned (Rust returns `Ok(n)`). -/
def UnixStream.write (s : UnixStream) (buf : List Nat) : Option Nat × UnixStream :=
  match s.wbehav s.wcalls with
  | WriteRes.err => (none, { s with wcalls := s.wcalls + 1 })
  | WriteRes.ok n =>
      (some (min n buf.length),
       { s with tx := s.tx ++ buf.take (min n buf.length), wcalls := s.wcalls + 1 })

/-- `Read::read_exact` on the socket: succeeds returning exactly `k` bytes
when that many are available, consuming them; otherwise fails with an I/O
error (the destination buffer's contents are then unspecified in Rust; the
model leaves the prior bytes consumed). -/
def UnixStream.read_exact (s : UnixStream) (k : Nat) : Option (List Nat) × UnixStream :=
  if k ≤ s.rx.length then (some (s.rx.take k), { s with rx := s.rx.drop k })
  else (none, { s with rx := [] })

/-- `PortSocket::write`: `try!(self.socket.write(buffer)); Ok(())` — one
write syscall whose byte count is discarded; an error is propagated. -/
def PortSocket.write (s : UnixStream) (buffer : List Nat) : Option Unit × UnixStream :=
  match UnixStream.write s buffer with
  | (none, s1) => (none, s1)
  | (some _, s1) => (some (), s1)

/-- `PortSocket::write_command`: writes the one opcode byte `cmd.0`, then the
payload buffer, as two write syscalls, each with its count discarded and its
error propagated. -/
def PortSocket.write_command (s : UnixStream) (cmd : Nat) (buffer : List Nat) :
    Option Unit × UnixStream :=
  match UnixStream.write s [cmd] with
  | (none, s1) => (none, s1)
  | (some _, s1) =>
      match UnixStream.write s1 buffer with
      | (none, s2) => (none, s2)
      | (some _, s2) => (some (), s2)

/-- `PortSocket::read_exact`: `try!(self.socket.read_exact(buffer)); Ok(())`. -/
def PortSocket.read_exact (s : UnixStream) (k : Nat) : Option (List Nat) × UnixStream :=
  UnixStream.read_exact s k

/-- Write behaviour of a healthy socket: every write syscall succeeds and
accepts up to 256 bytes, enough for every buffer the driver may offer (the
protocol's length fields are single bytes). -/
def fullW : Nat → WriteRes := fun _ => WriteRes.ok 256

/-- Result of one I2C bus operation as observed by the caller: a normal
return value, a returned `io::Error`, or a panic (`.unwrap()` on a failed
write, or the `assert_eq!` reply-tag check firing). -/
inductive OpRes (α : Type) where
  | ok (a : α) : OpRes α
  | ioErr : OpRes α
  | panicked : OpRes α
deriving DecidableEq

/-- `I2C::send`: start(address<<1), transmit(len), the raw buffer bytes,
stop().  Every write is `.unwrap()`ed, so a write error panics.  Nothing is
read. -/
def I2C.send (proto : Protocol) (s : UnixStream) (address : Nat) (write_buf : List Nat) :
    OpRes Unit × UnixStream :=
  match PortSocket.write_command s proto.START [(address <<< 1) % 256] with
  | (none, s1) => (OpRes.panicked, s1)
  | (some _, s1) =>
    match PortSocket.write_command s1 proto.TX [write_buf.length % 256] with
    | (none, s2) => (OpRes.panicked, s2)
    | (some _, s2) =>
      match PortSocket.write s2 write_buf with
      | (none, s3) => (OpRes.panicked, s3)
      | (some _, s3) =>
        match PortSocket.write_command s3 proto.STOP [] with
        | (none, s4) => (OpRes.panicked, s4)
        | (some _, s4) => (OpRes.ok (), s4)

lemma write_full (s : UnixStream) (buf : List Nat) (hw : s.wbehav = fullW)
    (hb : buf.length ≤ 256) :
    UnixStream.write s buf =
      (some buf.length, { s with tx := s.tx ++ buf, wcalls := s.wcalls + 1 }) := by
  have hmin : min 256 buf.length = buf.length := min_eq_right hb
  simp [UnixStream.write, hw, fullW, hmin, List.take_of_length_le hb]

lemma psocket_write_full (s : UnixStream) (buf : List Nat) (hw : s.wbehav = fullW)
    (hb : buf.length ≤ 256) :
    PortSocket.write s buf =
      (some (), { s with tx := s.tx ++ buf, wcalls := s.wcalls + 1 }) := by
  simp [PortSocket.write, write_full s buf hw hb]

lemma write_command_full (s : UnixStream) (cmd : Nat) (buf : List Nat)
    (hw : s.wbehav = fullW) (hb : buf.length ≤ 256) :
    PortSocket.write_command s cmd buf =
      (some (), { s with tx := s.tx ++ cmd :: buf, wcalls := s.wcalls + 2 }) := by
  have h1 : UnixStream.write s [cmd] =
      (some 1, { s with tx := s.tx ++ [cmd], wcalls := s.wcalls + 1 }) := by
    simpa using write_full s [cmd] hw (by simp)
  have h2 : UnixStream.write { s with tx := s.tx ++ [cmd], wcalls := s.wcalls + 1 } buf =
      (some buf.length,
        { s with tx := (s.tx ++ [cmd]) ++ buf, wcalls := s.wcalls + 2 }) := by
    simpa [Nat.add_assoc] using
      write_full { s with tx := s.tx ++ [cmd], wcalls := s.wcalls + 1 } buf hw hb
  simp [PortSocket.write_command, h1, h2]

lemma two_mul_lor_one (a : Nat) : 2 * a ||| 1 = 2 * a + 1 := by
  simpa [Nat.bit] using Nat.lor_bit false a true 0

/-- `I2C::read`: start(address<<1|1), receive(len), stop(), all `.unwrap()`ed;
then one byte is read into the zero-initialised `read_byte` buffer with the
`io::Result` of that `read_exact` call silently discarded (the source binds
no name to it); then `assert_eq!(read_byte[0], reply::DATA.0)` panics on a
tag mismatch; finally `read_exact(read_buf)` is returned directly. -/
def I2C.read (proto : Protocol) (s : UnixStream) (address : Nat) (n : Nat) :
    OpRes (List Nat) × UnixStream :=
  match PortSocket.write_command s proto.START [(address <<< 1) % 256 ||| 1] with
  | (none, s1) => (OpRes.panicked, s1)
  | (some _, s1) =>
    match PortSocket.write_command s1 proto.RX [n % 256] with
    | (none, s2) => (OpRes.panicked, s2)
    | (some _, s2) =>
      match PortSocket.write_command s2 proto.STOP [] with
      | (none, s3) => (OpRes.panicked, s3)
      | (some _, s3) =>
        match PortSocket.read_exact s3 1 with
        | (tagRes, s4) =>
          let read_byte : Nat :=
            match tagRes with
            | some l => l.headD 0
            | none => 0
          if read_byte = proto.DATA then
            match PortSocket.read_exact s4 n with
            | (none, s5) => (OpRes.ioErr, s5)
            | (some bytes, s5) => (OpRes.ok bytes, s5)
          else (OpRes.panicked, s4)

/-- `I2C::transfer`: start(address<<1|1), transmit(len(write_buf)),
start(address<<1|1) again (repeated start), receive(len(read_buf)), stop(),
all `.unwrap()`ed; then exactly the same discarded tag read, `assert_eq!`
tag check and payload read as `I2C::read`.  Note the source never writes the
bytes of `write_buf` itself. -/
def I2C.transfer (proto : Protocol) (s : UnixStream) (address : Nat)
    (write_buf : List Nat) (n : Nat) : OpRes (List Nat) × UnixStream :=
  match PortSocket.write_command s proto.START [(address <<< 1) % 256 ||| 1] with
  | (none, s1) => (OpRes.panicked, s1)
  | (some _, s1) =>
    match PortSocket.write_command s1 proto.TX [write_buf.length % 256] with
    | (none, s2) => (OpRes.panicked, s2)
    | (some _, s2) =>
      match PortSocket.write_command s2 proto.START [(address <<< 1) % 256 ||| 1] with
      | (none, s3) => (OpRes.panicked, s3)
      | (some _, s3) =>
        match PortSocket.write_command s3 proto.RX [n % 256] with
        | (none, s4) => (OpRes.panicked, s4)
        | (some _, s4) =>
          match PortSocket.write_command s4 proto.STOP [] with
          | (none, s5) => (OpRes.panicked, s5)
          | (some _, s5) =>
            match PortSocket.read_exact s5 1 with
            | (tagRes, s6) =>
              let read_byte : Nat :=
                match tagRes with
                | some l => l.headD 0
                | none => 0
              if read_byte = proto.DATA then
                match PortSocket.read_exact s6 n with
                | (none, s7) => (OpRes.ioErr, s7)
                | (some bytes, s7) => (OpRes.ok bytes, s7)
              else (OpRes.panicked, s6)

/-- C1: for every 7-bit address and write buffer of at most 255 bytes, on a
healthy channel `I2C::send` writes exactly the bytes
START, address<<1, TX, len(buf), the raw buffer, STOP — in that order — and
reads nothing (the readable side of the stream is untouched). -/
theorem c1_send_frame_sequence (proto : Protocol) (s : UnixStream) (address : Nat)
    (write_buf : List Nat) (ha : address < 128) (hb : write_buf.length ≤ 255)
    (hw : s.wbehav = fullW) :
    (I2C.send proto s address write_buf).1 = OpRes.ok () ∧
    (I2C.send proto s address write_buf).2.tx =
      s.tx ++ [proto.START, 2 * address, proto.TX, write_buf.length]
        ++ write_buf ++ [proto.STOP] ∧
    (I2C.send proto s address write_buf).2.rx = s.rx := by
  have hsh : (address <<< 1) % 256 = 2 * address := by
    rw [Nat.shiftLeft_eq]
    omega
  have hlen : write_buf.length % 256 = write_buf.length := by omega
  have hb' : write_buf.length ≤ 256 := by omega
  simp only [I2C.send, hsh, hlen]
  simp [write_command_full, psocket_write_full, hw, hb']

/-- Closed instance of C1: a concrete run on a fresh healthy channel. -/
theorem c1_send_frame_sequence_witness :
    (I2C.send ⟨10, 11, 12, 13, 14, 15⟩ ⟨[], [], fullW, 0⟩ 5 [7, 8]).1 = OpRes.ok () ∧
    (I2C.send ⟨10, 11, 12, 13, 14, 15⟩ ⟨[], [], fullW, 0⟩ 5 [7, 8]).2.tx =
      ([] : List Nat) ++ [11, 2 * 5, 12, (2 : Nat)] ++ [7, 8] ++ [14] ∧
    (I2C.send ⟨10, 11, 12, 13, 14, 15⟩ ⟨[], [], fullW, 0⟩ 5 [7, 8]).2.rx = [] :=
  c1_send_frame_sequence ⟨10, 11, 12, 13, 14, 15⟩ ⟨[], [], fullW, 0⟩ 5 [7, 8]
    (by decide) (by decide) rfl

/-- C2: for every 7-bit address and requested length of at most 255, on a
healthy channel whose reply stream offers a tag byte `t` followed by at
least the requested number of bytes, `I2C::read` writes exactly the frames
START, address<<1|1, RX, len, STOP; if `t` is not the data-reply tag the
caller sees the `assert_eq!` panic — an outcome distinct from a returned
`io::Error` — and if `t` is the data tag the caller gets back exactly the
next `len` reply bytes with a success return. -/
theorem c2_read_frames_and_reply (proto : Protocol) (s : UnixStream) (address n t : Nat)
    (rest : List Nat) (ha : address < 128) (hn : n ≤ 255) (hw : s.wbehav = fullW)
    (hr : s.rx = t :: rest) (hrest : n ≤ rest.length) :
    (I2C.read proto s address n).2.tx =
      s.tx ++ [proto.START, 2 * address ||| 1, proto.RX, n, proto.STOP] ∧
    (t ≠ proto.DATA → (I2C.read proto s address n).1 = OpRes.panicked) ∧
    (t = proto.DATA →
      (I2C.read proto s address n).1 = OpRes.ok (rest.take n) ∧
      (I2C.read proto s address n).2.rx = rest.drop n) := by
  have hm : (address <<< 1) % 256 = 2 * address := by
    rw [Nat.shiftLeft_eq]
    omega
  have hlen : n % 256 = n := by omega
  by_cases ht : t = proto.DATA <;>
    simp [I2C.read, hm, hlen, write_command_full, hw,
      PortSocket.read_exact, UnixStream.read_exact, hr, hrest, ht]

/-- Closed instance of C2: a concrete run in which the reply tag matches. -/
theorem c2_read_frames_and_reply_witness :
    (I2C.read ⟨10, 11, 12, 13, 14, 15⟩ ⟨[15, 21, 22], [], fullW, 0⟩ 5 2).2.tx =
      [] ++ [11, 2 * 5 ||| 1, 13, 2, 14] ∧
    ((15 : Nat) ≠ 15 →
      (I2C.read ⟨10, 11, 12, 13, 14, 15⟩ ⟨[15, 21, 22], [], fullW, 0⟩ 5 2).1 =
        OpRes.panicked) ∧
    ((15 : Nat) = 15 →
      (I2C.read ⟨10, 11, 12, 13, 14, 15⟩ ⟨[15, 21, 22], [], fullW, 0⟩ 5 2).1 =
        OpRes.ok ([21, 22].take 2) ∧
      (I2C.read ⟨10, 11, 12, 13, 14, 15⟩ ⟨[15, 21, 22], [], fullW, 0⟩ 5 2).2.rx =
        [21, 22].drop 2) :=
  c2_read_frames_and_reply ⟨10, 11, 12, 13, 14, 15⟩ ⟨[15, 21, 22], [], fullW, 0⟩ 5 2 15
    [21, 22] (by decide) (by decide) rfl rfl (by decide)

/-- C3: for every 7-bit address, write length and read length of at most 255,
on a healthy channel `I2C::transfer` writes exactly the frames
START, address<<1|1, TX, len(write_buf), START, address<<1|1 (repeated
start), RX, len(read_buf), STOP, and then validates the reply tag and reads
the payload exactly as `I2C::read` does. -/
theorem c3_transfer_frames_and_reply (proto : Protocol) (s : UnixStream)
    (address n t : Nat) (write_buf rest : List Nat) (ha : address < 128)
    (hwb : write_buf.length ≤ 255) (hn : n ≤ 255) (hw : s.wbehav = fullW)
    (hr : s.rx = t :: rest) (hrest : n ≤ rest.length) :
    (I2C.transfer proto s address write_buf n).2.tx =
      s.tx ++ [proto.START, 2 * address ||| 1, proto.TX, write_buf.length,
        proto.START, 2 * address ||| 1, proto.RX, n, proto.STOP] ∧
    (t ≠ proto.DATA →
      (I2C.transfer proto s address write_buf n).1 = OpRes.panicked) ∧
    (t = proto.DATA →
      (I2C.transfer proto s address write_buf n).1 = OpRes.ok (rest.take n) ∧
      (I2C.transfer proto s address write_buf n).2.rx = rest.drop n) := by
  have hm : (address <<< 1) % 256 = 2 * address := by
    rw [Nat.shiftLeft_eq]
    omega
  have hlen : n % 256 = n := by omega
  have hwlen : write_buf.length % 256 = write_buf.length := by omega
  by_cases ht : t = proto.DATA <;>
    simp [I2C.transfer, hm, hlen, hwlen, write_command_full, hw,
      PortSocket.read_exact, UnixStream.read_exact, hr, hrest, ht]

/-- Closed instance of C3: a concrete run in which the reply tag mismatches,
so the caller sees the assertion panic. -/
theorem c3_transfer_frames_and_reply_witness :
    (I2C.transfer ⟨10, 11, 12, 13, 14, 15⟩ ⟨[99, 21], [], fullW, 0⟩ 6 [33] 1).2.tx =
      [] ++ [11, 2 * 6 ||| 1, 12, 1, 11, 2 * 6 ||| 1, 13, 1, 14] ∧
    ((99 : Nat) ≠ 15 →
      (I2C.transfer ⟨10, 11, 12, 13, 14, 15⟩ ⟨[99, 21], [], fullW, 0⟩ 6 [33] 1).1 =
        OpRes.panicked) ∧
    ((99 : Nat) = 15 →
      (I2C.transfer ⟨10, 11, 12, 13, 14, 15⟩ ⟨[99, 21], [], fullW, 0⟩ 6 [33] 1).1 =
        OpRes.ok ([21].take 1) ∧
      (I2C.transfer ⟨10, 11, 12, 13, 14, 15⟩ ⟨[99, 21], [], fullW, 0⟩ 6 [33] 1).2.rx =
        [21].drop 1) :=
  c3_transfer_frames_and_reply ⟨10, 11, 12, 13, 14, 15⟩ ⟨[99, 21], [], fullW, 0⟩ 6 1 99
    [33] [21] (by decide) (by decide) (by decide) rfl rfl (by decide)

/-- Truncation of a rational toward zero, the semantics of Rust numeric
casts from a float to an integer type (`low as i64`, `low as u8`). -/
def ratTrunc (q : ℚ) : ℤ := if 0 ≤ q then ⌊q⌋ else ⌈q⌉

/-- `I2C::compute_baud`, the SAMD21 I2C clock-divisor computation.  The
source computes with `f64`; the model computes with exact rationals
(`MCU_MAX_SPEED = 48e6`, `MCU_MAX_SCL_RISE_TIME_NS = 1.5e-8` = 15/10^9,
divide factor 2, subtract factor 5).  Every comparison the claims rest on
is far from the sub-ulp rounding error of `f64` at these magnitudes.  The
trailing cast chain of the source — `.min(255.0)`, the `as i64` sign probe
against 0, and the final `as u8` — is the `min`, `ratTrunc` and `toNat`
below.  Rust `48e6/0.0` is infinite and saturates to 255; the rational
model is only claimed for positive frequencies. -/
def I2C.compute_baud (frequency : Nat) : Nat :=
  let intermediate : ℚ := (48000000 : ℚ) / (frequency : ℚ)
  let intermediate := intermediate - (48000000 : ℚ) * (15 / 1000000000 : ℚ)
  let intermediate := intermediate / 2 - 5
  let low : ℚ := min intermediate 255
  if ratTrunc low < 0 then 0 else (ratTrunc low).toNat

/-- The raw (unclamped) divisor value of the spec's closed-form formula:
`(max_clock/frequency - max_clock*rise_time)/scale - offset`. -/
def I2C.raw_value (frequency : Nat) : ℚ :=
  ((48000000 : ℚ) / (frequency : ℚ) - (48000000 : ℚ) * (15 / 1000000000 : ℚ)) / 2 - 5

lemma compute_baud_eq (f : Nat) :
    I2C.compute_baud f =
      if ratTrunc (min (I2C.raw_value f) 255) < 0 then 0
      else (ratTrunc (min (I2C.raw_value f) 255)).toNat := rfl

lemma raw_value_ref : I2C.raw_value 1000000 = 466 / 25 := by
  unfold I2C.raw_value
  norm_num

lemma compute_baud_ref : I2C.compute_baud 1000000 = 18 := by
  rw [compute_baud_eq, raw_value_ref]
  have hmin : min ((466 : ℚ) / 25) 255 = 466 / 25 := by
    rw [min_eq_left]
    norm_num
  have htr : ratTrunc ((466 : ℚ) / 25) = 18 := by
    rw [ratTrunc, if_pos (by norm_num)]
    rw [Int.floor_eq_iff]
    norm_num
  rw [hmin, htr]
  decide

/-- C4 counterexample: the claim's documented reference point is false on
the code: the divisor computed for the documented reference frequency
1000000 Hz is 18, not the documented reference byte 4. -/
theorem c4_reference_point_false : I2C.compute_baud 1000000 ≠ 4 := by
  rw [compute_baud_ref]
  decide

/-- C4 (amended): the divisor computation is a deterministic pure function
that never fails: raw values above 255 saturate to 255, raw values below 0
saturate to 0, in-range raw values are truncated to their integer part, and
the documented reference frequency 1000000 Hz maps to divisor byte 18 (not
4 as the source's doc comment states). -/
theorem c4_divisor_clamping (frequency : Nat) (_hf : 0 < frequency) :
    (255 < I2C.raw_value frequency → I2C.compute_baud frequency = 255) ∧
    (I2C.raw_value frequency < 0 → I2C.compute_baud frequency = 0) ∧
    (0 ≤ I2C.raw_value frequency → I2C.raw_value frequency ≤ 255 →
      I2C.compute_baud frequency = (⌊I2C.raw_value frequency⌋).toNat) ∧
    I2C.compute_baud 1000000 = 18 := by
  refine ⟨?_, ?_, ?_, compute_baud_ref⟩
  · intro h
    rw [compute_baud_eq, min_eq_right h.le]
    have htr : ratTrunc (255 : ℚ) = 255 := by
      rw [ratTrunc, if_pos (by norm_num)]
      simp
    rw [htr]
    decide
  · intro h
    rw [compute_baud_eq, min_eq_left (h.le.trans (by norm_num))]
    rw [ratTrunc, if_neg (not_le.mpr h)]
    have hceil : ⌈I2C.raw_value frequency⌉ ≤ 0 := Int.ceil_le.mpr (by exact_mod_cast h.le)
    by_cases hc : ⌈I2C.raw_value frequency⌉ < 0
    · rw [if_pos hc]
    · rw [if_neg hc]
      omega
  · intro h0 h255
    rw [compute_baud_eq, min_eq_left h255, ratTrunc, if_pos h0,
      if_neg (not_lt.mpr (Int.floor_nonneg.mpr h0))]

/-- Closed instance of C4 (amended), at the in-range frequency 96000 Hz. -/
theorem c4_divisor_clamping_witness :
    (255 < I2C.raw_value 96000 → I2C.compute_baud 96000 = 255) ∧
    (I2C.raw_value 96000 < 0 → I2C.compute_baud 96000 = 0) ∧
    (0 ≤ I2C.raw_value 96000 → I2C.raw_value 96000 ≤ 255 →
      I2C.compute_baud 96000 = (⌊I2C.raw_value 96000⌋).toNat) ∧
    I2C.compute_baud 1000000 = 18 :=
  c4_divisor_clamping 96000 (by decide)

/-- `I2C::enable`: a single `write_command(ENABLE_I2C, &[baud])` on the
shared socket, `.unwrap()`ed, with no reply read. -/
def I2C.enable (proto : Protocol) (s : UnixStream) (baud : Nat) :
    OpRes Unit × UnixStream :=
  match PortSocket.write_command s proto.ENABLE_I2C [baud] with
  | (none, s1) => (OpRes.panicked, s1)
  | (some _, s1) => (OpRes.ok (), s1)

/-- `I2C::new`: computes the baud byte for the requested frequency and
immediately calls `enable` on the shared socket before returning the
engine; nothing else touches the channel during construction. -/
def I2C.new (proto : Protocol) (s : UnixStream) (frequency : Nat) :
    OpRes Unit × UnixStream :=
  I2C.enable proto s (I2C.compute_baud frequency)

/-- C5: constructing an I2C engine with a requested frequency sends exactly
one enable frame — the enable-bus opcode followed by the single byte
`compute_baud(frequency)` — on the Channel, before any transaction frames
(the written stream after construction is exactly the prior stream plus
that one frame), and reads nothing. -/
theorem c5_construction_enable_frame (proto : Protocol) (s : UnixStream)
    (frequency : Nat) (hw : s.wbehav = fullW) :
    (I2C.new proto s frequency).1 = OpRes.ok () ∧
    (I2C.new proto s frequency).2.tx =
      s.tx ++ [proto.ENABLE_I2C, I2C.compute_baud frequency] ∧
    (I2C.new proto s frequency).2.rx = s.rx := by
  simp [I2C.new, I2C.enable, write_command_full, hw]

/-- Closed instance of C5: a fresh healthy channel at 1000000 Hz carries
exactly the enable opcode and the divisor byte after construction. -/
theorem c5_construction_enable_frame_witness :
    (I2C.new ⟨10, 11, 12, 13, 14, 15⟩ ⟨[], [], fullW, 0⟩ 1000000).1 = OpRes.ok () ∧
    (I2C.new ⟨10, 11, 12, 13, 14, 15⟩ ⟨[], [], fullW, 0⟩ 1000000).2.tx =
      [] ++ [10, I2C.compute_baud 1000000] ∧
    (I2C.new ⟨10, 11, 12, 13, 14, 15⟩ ⟨[], [], fullW, 0⟩ 1000000).2.rx = [] :=
  c5_construction_enable_frame ⟨10, 11, 12, 13, 14, 15⟩ ⟨[], [], fullW, 0⟩ 1000000 rfl

/-- State of one entry of the pin registry: the `Mutex<()>` guarding a pin
is unlocked, locked (a `MutexGuard` is outstanding), or poisoned by an
earlier failure. -/
inductive LockSt where
  | free : LockSt
  | held : LockSt
  | poisoned : LockSt
deriving DecidableEq

/-- State of a `Port`: its pin registry, the `HashMap<usize, Mutex<()>>`
mapping pin indices to their exclusivity locks (the shared socket is passed
separately to the operations that use it). -/
structure PortState where
  pins : List (Nat × LockSt)

/-- `Port::new`: the pin registry is created as `HashMap::new()` and no
entry is ever inserted — the map stays empty.  (Connecting the socket is
out of scope of the pin claims.) -/
def Port.new : PortState := ⟨[]⟩

def lookupPin (ps : List (Nat × LockSt)) (i : Nat) : Option LockSt :=
  (ps.find? (fun e => e.1 = i)).map (fun e => e.2)

/-- Outcome of `Port::pin(index)` for the caller.  The crate is
single-threaded (the socket is behind an `Rc`, which is not `Send`), so
`Mutex::lock` on a mutex whose guard is still alive can never be released
by another thread: the call blocks forever, modelled as `blocked`.  A
poisoned lock makes `lock()` return an error which `try!` propagates
(`TryLockError::Poisoned`).  An index with no registry entry hits
`.expect(\x22TODO dont panic\x22)` on `None` and panics. -/
inductive PinRes where
  | ok : PinRes
  | blocked : PinRes
  | poisonErr : PinRes
  | panicked : PinRes
deriving DecidableEq

/-- `Port::pin`: look the index up in the registry (panicking when absent)
and take the lock. -/
def Port.pin (p : PortState) (index : Nat) : PinRes :=
  match lookupPin p.pins index with
  | none => PinRes.panicked
  | some LockSt.free => PinRes.ok
  | some LockSt.held => PinRes.blocked
  | some LockSt.poisoned => PinRes.poisonErr

/-- Outcome of `Port::i2c` for the caller: an engine (`Ok`), a propagated
`TryLockError` (`errPoison`), an indefinite block on a held pin lock, or a
panic (missing registry entry, or `enable`'s unwrap). -/
inductive I2cRes where
  | ok : I2cRes
  | errPoison : I2cRes
  | blocked : I2cRes
  | panicked : I2cRes
deriving DecidableEq

/-- `Port::i2c`: `let scl = try!(self.pin(0)); let sda = try!(self.pin(1));
Ok(I2C::new(..))`.  The returned triple is the caller-visible outcome, the
list of pin indices for which an acquisition was attempted (in order), and
the socket stream state afterwards. -/
def Port.i2c (proto : Protocol) (p : PortState) (s : UnixStream) (frequency : Nat) :
    I2cRes × List Nat × UnixStream :=
  match Port.pin p 0 with
  | PinRes.ok =>
    match Port.pin p 1 with
    | PinRes.ok =>
      match I2C.new proto s frequency with
      | (OpRes.ok _, s1) => (I2cRes.ok, [0, 1], s1)
      | (OpRes.ioErr, s1) => (I2cRes.panicked, [0, 1], s1)
      | (OpRes.panicked, s1) => (I2cRes.panicked, [0, 1], s1)
    | PinRes.blocked => (I2cRes.blocked, [0, 1], s)
    | PinRes.poisonErr => (I2cRes.errPoison, [0, 1], s)
    | PinRes.panicked => (I2cRes.panicked, [0, 1], s)
  | PinRes.blocked => (I2cRes.blocked, [0], s)
  | PinRes.poisonErr => (I2cRes.errPoison, [0], s)
  | PinRes.panicked => (I2cRes.panicked, [0], s)

/-- C6: the claim is right and the code is wrong.  `Port::new` creates the
pin registry as `HashMap::new()` and nothing in the crate ever inserts an
entry, so `pin(index)` finds no entry for any index — including pins 0 and
1, which the port must expose for its own `i2c` method — and panics through
`.expect` (whose message, TODO dont panic, records the intent to report the
failure instead).  No pin handle can ever be returned and no unknown-pin
failure is ever reported to the caller. -/
theorem c6_empty_registry_always_panics :
    ∀ i : Nat, Port.pin Port.new i = PinRes.panicked := by
  intro i
  rfl

/-- A port state in which pin 0's lock has an outstanding guard. -/
def pHeld : PortState := ⟨[(0, LockSt.held)]⟩

/-- C7 counterexample: with pin 0 held, `Port::i2c` does not fail — the
`Mutex::lock` inside `pin(0)` blocks the (single-threaded) caller forever
rather than returning an error, so the claim's consequent "the call fails"
is false at this input.  (No enable frame is sent, but no failure is
reported either.) -/
theorem c7_held_pin_blocks_instead_of_failing :
    lookupPin pHeld.pins 0 = some LockSt.held ∧
    (Port.i2c ⟨10, 11, 12, 13, 14, 15⟩ pHeld ⟨[], [], fullW, 0⟩ 100000).1 =
      I2cRes.blocked ∧
    I2cRes.blocked ≠ I2cRes.errPoison := by
  refine ⟨rfl, rfl, by decide⟩

/-- C7 (amended): when pin 0 is unavailable, `Port::i2c` never reaches the
enable sequence and never attempts pin 1: a held lock blocks the caller
indefinitely, a poisoned lock propagates an error, a missing registry entry
panics — and in each of these cases, as well as when pin 1 is not acquired
after pin 0 was, nothing at all is written on the Channel, so a
construction that does not succeed never leaves the bus enabled. -/
theorem c7_no_enable_frame_on_pin_failure (proto : Protocol) (p : PortState)
    (s : UnixStream) (frequency : Nat) :
    (lookupPin p.pins 0 = some LockSt.held →
      (Port.i2c proto p s frequency).1 = I2cRes.blocked ∧
      (Port.i2c proto p s frequency).2.1 = [0] ∧
      (Port.i2c proto p s frequency).2.2.tx = s.tx) ∧
    (lookupPin p.pins 0 = some LockSt.poisoned →
      (Port.i2c proto p s frequency).1 = I2cRes.errPoison ∧
      (Port.i2c proto p s frequency).2.1 = [0] ∧
      (Port.i2c proto p s frequency).2.2.tx = s.tx) ∧
    (lookupPin p.pins 0 = none →
      (Port.i2c proto p s frequency).1 = I2cRes.panicked ∧
      (Port.i2c proto p s frequency).2.1 = [0] ∧
      (Port.i2c proto p s frequency).2.2.tx = s.tx) ∧
    (Port.pin p 0 = PinRes.ok → Port.pin p 1 ≠ PinRes.ok →
      (Port.i2c proto p s frequency).1 ≠ I2cRes.ok ∧
      (Port.i2c proto p s frequency).2.2.tx = s.tx) := by
  refine ⟨?_, ?_, ?_, ?_⟩
  · intro h
    simp [Port.i2c, Port.pin, h]
  · intro h
    simp [Port.i2c, Port.pin, h]
  · intro h
    simp [Port.i2c, Port.pin, h]
  · intro h0 h1
    unfold Port.i2c
    rw [h0]
    cases hp1 : Port.pin p 1 <;> simp_all

/-- Closed instance of C7 (amended), at the held-pin state. -/
theorem c7_no_enable_frame_on_pin_failure_witness :
    (lookupPin pHeld.pins 0 = some LockSt.held →
      (Port.i2c ⟨10, 11, 12, 13, 14, 15⟩ pHeld ⟨[], [], fullW, 0⟩ 100000).1 =
        I2cRes.blocked ∧
      (Port.i2c ⟨10, 11, 12, 13, 14, 15⟩ pHeld ⟨[], [], fullW, 0⟩ 100000).2.1 = [0] ∧
      (Port.i2c ⟨10, 11, 12, 13, 14, 15⟩ pHeld ⟨[], [], fullW, 0⟩ 100000).2.2.tx =
        (⟨[], [], fullW, 0⟩ : UnixStream).tx) ∧
    (lookupPin pHeld.pins 0 = some LockSt.poisoned →
      (Port.i2c ⟨10, 11, 12, 13, 14, 15⟩ pHeld ⟨[], [], fullW, 0⟩ 100000).1 =
        I2cRes.errPoison ∧
      (Port.i2c ⟨10, 11, 12, 13, 14, 15⟩ pHeld ⟨[], [], fullW, 0⟩ 100000).2.1 = [0] ∧
      (Port.i2c ⟨10, 11, 12, 13, 14, 15⟩ pHeld ⟨[], [], fullW, 0⟩ 100000).2.2.tx =
        (⟨[], [], fullW, 0⟩ : UnixStream).tx) ∧
    (lookupPin pHeld.pins 0 = none →
      (Port.i2c ⟨10, 11, 12, 13, 14, 15⟩ pHeld ⟨[], [], fullW, 0⟩ 100000).1 =
        I2cRes.panicked ∧
      (Port.i2c ⟨10, 11, 12, 13, 14, 15⟩ pHeld ⟨[], [], fullW, 0⟩ 100000).2.1 = [0] ∧
      (Port.i2c ⟨10, 11, 12, 13, 14, 15⟩ pHeld ⟨[], [], fullW, 0⟩ 100000).2.2.tx =
        (⟨[], [], fullW, 0⟩ : UnixStream).tx) ∧
    (Port.pin pHeld 0 = PinRes.ok → Port.pin pHeld 1 ≠ PinRes.ok →
      (Port.i2c ⟨10, 11, 12, 13, 14, 15⟩ pHeld ⟨[], [], fullW, 0⟩ 100000).1 ≠
        I2cRes.ok ∧
      (Port.i2c ⟨10, 11, 12, 13, 14, 15⟩ pHeld ⟨[], [], fullW, 0⟩ 100000).2.2.tx =
        (⟨[], [], fullW, 0⟩ : UnixStream).tx) :=
  c7_no_enable_frame_on_pin_failure ⟨10, 11, 12, 13, 14, 15⟩ pHeld ⟨[], [], fullW, 0⟩ 100000

/-- Write behaviour of a socket under pressure: each write syscall accepts
only one byte (a short write, which `Write::write` reports through its
returned count). -/
def shortW : Nat → WriteRes := fun _ => WriteRes.ok 1

/-- C8: the claim is right and the code is wrong.
`PortSocket::write` calls `Write::write` once and discards the
returned byte count, so a short write loses the tail of the buffer while
the function still returns `Ok(())`: writing [7, 8] on a socket that
accepts one byte per syscall puts only [7] on the stream yet reports
success, contradicting "writes all given bytes". -/
theorem c8_short_write_reports_success :
    (PortSocket.write ⟨[], [], shortW, 0⟩ [7, 8]).1 = some () ∧
    (PortSocket.write ⟨[], [], shortW, 0⟩ [7, 8]).2.tx = [7] ∧
    [7] ≠ [7, 8] := by
  refine ⟨rfl, rfl, by decide⟩

/-- C9: the claim is right and the code is wrong.  In `I2C::read` (and
identically in `I2C::transfer`) the `io::Result` of the `read_exact` call
that fetches the one-byte reply tag is silently discarded.  When that read
fails (here: the coprocessor has sent nothing, so the reply stream is
empty), the zero-initialised `read_byte` buffer is left untouched and
execution continues into the `assert_eq!`: the caller either sees a
spurious desync panic (when the data tag is nonzero) or — when the data
tag byte is 0 and the requested payload is empty — a plain success.  In no
case is the I/O failure on the tag read reported as an I/O error. -/
theorem c9_tag_read_failure_swallowed (proto : Protocol) (s : UnixStream)
    (address : Nat) (_ha : address < 128) (hw : s.wbehav = fullW) (hr : s.rx = []) :
    ((I2C.read proto s address 0).1 ≠ OpRes.ioErr ∧
      (proto.DATA = 0 → (I2C.read proto s address 0).1 = OpRes.ok []) ∧
      (proto.DATA ≠ 0 → (I2C.read proto s address 0).1 = OpRes.panicked)) ∧
    ((I2C.transfer proto s address [] 0).1 ≠ OpRes.ioErr ∧
      (proto.DATA = 0 → (I2C.transfer proto s address [] 0).1 = OpRes.ok []) ∧
      (proto.DATA ≠ 0 →
        (I2C.transfer proto s address [] 0).1 = OpRes.panicked)) := by
  by_cases hD : proto.DATA = 0
  · simp [I2C.read, I2C.transfer, write_command_full, hw,
      PortSocket.read_exact, UnixStream.read_exact, hr, hD]
  · have hD' : ¬(0 = proto.DATA) := fun h => hD h.symm
    simp [I2C.read, I2C.transfer, write_command_full, hw,
      PortSocket.read_exact, UnixStream.read_exact, hr, hD, hD']

/-- Closed instance of C9: with data tag byte 0 and an empty reply stream,
`read` returns success even though the tag read failed. -/
theorem c9_tag_read_failure_swallowed_witness :
    ((I2C.read ⟨10, 11, 12, 13, 14, 0⟩ ⟨[], [], fullW, 0⟩ 5 0).1 ≠ OpRes.ioErr ∧
      ((⟨10, 11, 12, 13, 14, 0⟩ : Protocol).DATA = 0 →
        (I2C.read ⟨10, 11, 12, 13, 14, 0⟩ ⟨[], [], fullW, 0⟩ 5 0).1 = OpRes.ok []) ∧
      ((⟨10, 11, 12, 13, 14, 0⟩ : Protocol).DATA ≠ 0 →
        (I2C.read ⟨10, 11, 12, 13, 14, 0⟩ ⟨[], [], fullW, 0⟩ 5 0).1 =
          OpRes.panicked)) ∧
    ((I2C.transfer ⟨10, 11, 12, 13, 14, 0⟩ ⟨[], [], fullW, 0⟩ 5 [] 0).1 ≠
        OpRes.ioErr ∧
      ((⟨10, 11, 12, 13, 14, 0⟩ : Protocol).DATA = 0 →
        (I2C.transfer ⟨10, 11, 12, 13, 14, 0⟩ ⟨[], [], fullW, 0⟩ 5 [] 0).1 =
          OpRes.ok []) ∧
      ((⟨10, 11, 12, 13, 14, 0⟩ : Protocol).DATA ≠ 0 →
        (I2C.transfer ⟨10, 11, 12, 13, 14, 0⟩ ⟨[], [], fullW, 0⟩ 5 [] 0).1 =
          OpRes.panicked)) :=
  c9_tag_read_failure_swallowed ⟨10, 11, 12, 13, 14, 0⟩ ⟨[], [], fullW, 0⟩ 5
    (by decide) rfl rfl

/-- Model of one `LED`: its in-memory `value` field and the brightness file
it writes to (as the list of characters written so far).  The outcome of
the underlying `write_all` on a given call is the explicit `io_ok`
argument; on failure nothing is appended and `Err` is returned. -/
structure LED where
  value : Bool
  file : List Nat

/-- `LED::write`: the new value is saved to `self.value` FIRST, then the
textual byte (b'1' = 49 or b'0' = 48) is written to the file and that
result is returned. -/
def LED.write (led : LED) (new_value : Bool) (io_ok : Bool) : LED × Option Unit :=
  let led1 : LED := { led with value := new_value }
  let string_value : Nat := if new_value then 49 else 48
  if io_ok then ({ led1 with file := led1.file ++ [string_value] }, some ())
  else (led1, none)

/-- `LED::high`. -/
def LED.high (led : LED) (io_ok : Bool) : LED × Option Unit := LED.write led true io_ok

/-- `LED::low`. -/
def LED.low (led : LED) (io_ok : Bool) : LED × Option Unit := LED.write led false io_ok

/-- `LED::on` (same as `high`). -/
def LED.on (led : LED) (io_ok : Bool) : LED × Option Unit := LED.high led io_ok

/-- `LED::off` (same as `low`). -/
def LED.off (led : LED) (io_ok : Bool) : LED × Option Unit := LED.low led io_ok

/-- `LED::toggle`: writes the negation of the current value. -/
def LED.toggle (led : LED) (io_ok : Bool) : LED × Option Unit :=
  LED.write led (!led.value) io_ok

/-- `LED::read`: returns the in-memory value. -/
def LED.read (led : LED) : Bool := led.value

/-- C10: for every LED state and every state-changing call, the in-memory
value is updated before the file write is attempted, so `read()` returns
the requested new state whether the underlying file write succeeds or
fails — in particular a failed `toggle` still returns `Err` while the
model state has already flipped. -/
theorem c10_value_updated_before_file_write (led : LED) (io_ok : Bool) :
    (LED.on led io_ok).1.read = true ∧
    (LED.off led io_ok).1.read = false ∧
    (LED.high led io_ok).1.read = true ∧
    (LED.low led io_ok).1.read = false ∧
    (LED.toggle led io_ok).1.read = !led.value ∧
    (LED.toggle led false).2 = none := by
  cases io_ok <;>
    simp [LED.on, LED.off, LED.high, LED.low, LED.toggle, LED.write, LED.read]
